import Mathlib

/-!
Verification of the busuto concurrency-and-resource core against its
natural-language specification.  The definitions below are shallow
embeddings of the C++ sources (`src/service.hpp`, `src/sockets.hpp`,
`src/sockets.cpp`, `src/networks.cpp`, `src/resolver.hpp`): pure logic is
translated function by function, shared mutable structures become explicit
state values, machine integers become `Nat`, and throwing operations
return `Except`.  Background threads are modelled by making each worker
loop iteration an explicit step function on the guarded state.
-/

namespace Busuto

/-! ## Timer engine (`busuto::service::timer`, service.hpp)

A timer entry is the `timer_t` tuple `(id, period, task)` of service.hpp
line 393 minus the callback, which no claim inspects (callbacks are opaque
payloads; only deadlines, ids and periods drive the scheduling logic).
The `std::multimap<timepoint_t, timer_t> timers_` collection is modelled
as a list of `(deadline, entry)` pairs kept in key order; `mmInsert`
models `timers_.emplace`, which places a new pair after any pairs with an
equal key.  Time points and periods are milliseconds as `Nat`. -/

structure TimerEntry where
  id : Nat
  period : Nat
  deriving Repr, DecidableEq

/-- Insertion into the deadline-ordered multimap: the new pair goes after
all pairs whose key is `≤ k`, as `std::multimap::emplace` does. -/
def mmInsert (k : Nat) (v : TimerEntry) : List (Nat × TimerEntry) → List (Nat × TimerEntry)
  | [] => [(k, v)]
  | (k', v') :: rest =>
    if k < k' then (k, v) :: (k', v') :: rest
    else (k', v') :: mmInsert k v rest

/-- First pair whose entry has id `tid`, scanning in map iteration order;
models the `find_if`/range-for scans of `timers_` in service.hpp. -/
def findFirstById (ts : List (Nat × TimerEntry)) (tid : Nat) : Option (Nat × TimerEntry) :=
  match ts with
  | [] => none
  | (k, e) :: rest => if e.id = tid then some (k, e) else findFirstById rest tid

/-- Erase the first pair whose entry has id `tid`; models
`timers_.erase(it)` after a first-match scan (timer::cancel and the erase
step inside refresh/reset). -/
def eraseFirstById (ts : List (Nat × TimerEntry)) (tid : Nat) : List (Nat × TimerEntry) :=
  match ts with
  | [] => []
  | (k, e) :: rest => if e.id = tid then rest else (k, e) :: eraseFirstById rest tid

/-- `timer::repeats(tid, period)` (service.hpp lines 293-301): set the
period of the first entry with matching id, leaving everything else; the
boolean result is `true` exactly when a match was found. -/
def setPeriodFirst (ts : List (Nat × TimerEntry)) (tid : Nat) (p : Nat) : List (Nat × TimerEntry) :=
  match ts with
  | [] => []
  | (k, e) :: rest =>
    if e.id = tid then (k, { e with period := p }) :: rest
    else (k, e) :: setPeriodFirst rest tid p

/-- `timer::refresh(tid)` (service.hpp lines 370-390).  The scan finds the
first entry with the given id.  A zero-period entry returns `false`
untouched.  Otherwise the entry is erased; it is re-inserted at
`now + period` only when its old deadline `when` is still in the future
(`when > current` in the source).  `result` is initialised to `true` and
is never set to `false` on the expired path, so an expired entry is
removed and the call still reports `true`. -/
def refreshTimer (now : Nat) (tid : Nat) (ts : List (Nat × TimerEntry)) :
    Bool × List (Nat × TimerEntry) :=
  match findFirstById ts tid with
  | none => (false, ts)
  | some (whenKey, e) =>
    if e.period = 0 then (false, ts)
    else
      let rest := eraseFirstById ts tid
      if whenKey > now then (true, mmInsert (now + e.period) e rest)
      else (true, rest)

/-- `timer::reset(tid, offset, interval)` (service.hpp lines 350-368):
find the first match, update the period when `interval` is nonzero, erase
it and re-insert at `now + offset`. -/
def resetTimer (now tid offset interval : Nat) (ts : List (Nat × TimerEntry)) :
    Bool × List (Nat × TimerEntry) :=
  match findFirstById ts tid with
  | none => (false, ts)
  | some (_, e) =>
    let p := if interval ≠ 0 then interval else e.period
    (true, mmInsert (now + offset) ⟨e.id, p⟩ (eraseFirstById ts tid))

/-- One pass of the worker-loop body of `timer::run` (service.hpp lines
413-431) once the lock is held and the map is non-empty: look at
`timers_.begin()` (the head of the ordered list); if its deadline has
passed, erase it and, for a periodic entry, re-insert it at
`expires + period` — the *old* deadline plus the period — then fire it.
Returns the fired entry and the new map, or `none` when the nearest
deadline is still in the future and the worker would wait. -/
def runStep (now : Nat) (ts : List (Nat × TimerEntry)) :
    Option (TimerEntry × List (Nat × TimerEntry)) :=
  match ts with
  | [] => none
  | (expires, e) :: rest =>
    if expires ≤ now then
      some (e, if e.period ≠ 0 then mmInsert (expires + e.period) e rest else rest)
    else none

/-- Number of callbacks the worker fires while the clock stays at `now`:
iterate `runStep` until nothing is due.  `fuel` bounds the iteration and
is irrelevant once large enough. -/
def fireCount (now : Nat) : Nat → List (Nat × TimerEntry) → Nat
  | 0, _ => 0
  | fuel + 1, ts =>
    match runStep now ts with
    | none => 0
    | some (_, ts') => fireCount now fuel ts' + 1

/-- Guarded state of one timer instance: the deadline-ordered map and the
`next_` id counter (service.hpp line 401, initialised to 0). -/
structure TimerState where
  timers : List (Nat × TimerEntry) := []
  next : Nat := 0
  deriving Repr, DecidableEq

/-- The mutating operations of the timer engine.  Operations that read
the clock carry the observed `now` explicitly. -/
inductive TimerOp where
  | opAt (expires : Nat)
  | opOnce (now period : Nat)
  | opPeriodic (now period shorten : Nat)
  | opCancel (tid : Nat)
  | opFinish (tid : Nat)
  | opReset (now tid offset interval : Nat)
  | opRefresh (now tid : Nat)
  | opClear
  | opRunStep (now : Nat)
  deriving Repr, DecidableEq

/-- Common body of `timer::at`, `timer::once` and `timer::periodic`
(service.hpp lines 236-282): take `id = next_++`, emplace the entry at
the given deadline, return the id. -/
def scheduleTimer (st : TimerState) (key : Nat) (period : Nat) : TimerState × Option Nat :=
  (⟨mmInsert key ⟨st.next, period⟩ st.timers, st.next + 1⟩, some st.next)

/-- Apply one timer operation to the guarded state, yielding the new
state and the id handed back to the caller when the operation schedules a
new entry.  `opPeriodic` places the first fire at `now + period − shorten`
and records `period` for re-arming; `opRunStep` is one worker-loop pass. -/
def applyTimerOp (st : TimerState) : TimerOp → TimerState × Option Nat
  | .opAt expires => scheduleTimer st expires 0
  | .opOnce now period => scheduleTimer st (now + period) 0
  | .opPeriodic now period shorten => scheduleTimer st (now + period - shorten) period
  | .opCancel tid => (⟨eraseFirstById st.timers tid, st.next⟩, none)
  | .opFinish tid => (⟨setPeriodFirst st.timers tid 0, st.next⟩, none)
  | .opReset now tid offset interval => (⟨(resetTimer now tid offset interval st.timers).2, st.next⟩, none)
  | .opRefresh now tid => (⟨(refreshTimer now tid st.timers).2, st.next⟩, none)
  | .opClear => (⟨[], st.next⟩, none)
  | .opRunStep now =>
    match runStep now st.timers with
    | some (_, ts) => (⟨ts, st.next⟩, none)
    | none => (st, none)

/-- The ids handed out over a sequence of operations, in call order. -/
def issuedIds (st : TimerState) : List TimerOp → List Nat
  | [] => []
  | op :: ops =>
    match applyTimerOp st op with
    | (st', some i) => i :: issuedIds st' ops
    | (st', none) => issuedIds st' ops

/-! ## Task queue (`busuto::service::tasks`, service.hpp)

The guarded state is the `running_` flag and the `std::deque<task_t>
tasks_`; tasks are opaque payloads of an arbitrary type. -/

structure TasksState (α : Type) where
  running : Bool := false
  queue : List α := []
  deriving Repr, DecidableEq

/-- `tasks::dispatch(task, max)` (service.hpp lines 77-84): fail when not
running, fail when `max` is nonzero and the queue already holds at least
`max` entries, otherwise push at the back. -/
def dispatchTask {α : Type} (task : α) (max : Nat) (st : TasksState α) : Bool × TasksState α :=
  if !st.running then (false, st)
  else if max ≠ 0 ∧ st.queue.length ≥ max then (false, st)
  else (true, { st with queue := st.queue ++ [task] })

/-- `tasks::priority(task)` (service.hpp lines 68-75): fail when not
running, otherwise push at the front with no depth check. -/
def priorityTask {α : Type} (task : α) (st : TasksState α) : Bool × TasksState α :=
  if !st.running then (false, st)
  else (true, { st with queue := task :: st.queue })

/-- `tasks::shutdown()` (service.hpp lines 99-107): flip `running_` off;
queued tasks are left in place (dropped silently, never run). -/
def shutdownTasks {α : Type} (st : TasksState α) : TasksState α :=
  { st with running := false }

/-- `tasks::startup()` (service.hpp lines 92-97). -/
def startupTasks {α : Type} (st : TasksState α) : TasksState α :=
  { st with running := true }

/-! ## Characters, decimal and hexadecimal text

Digit handling for the address parsers and renderers.  The C sources test
`ch >= '0' && ch <= '9'` and compute `ch - '0'`; over the ten ASCII digit
characters this is exactly the ten-way tables below (`dval c = 10` marks
a non-digit). -/

/-- Decimal value of an ASCII digit character, 10 for anything else. -/
def dval (c : Char) : Nat :=
  if c = '0' then 0 else if c = '1' then 1 else if c = '2' then 2
  else if c = '3' then 3 else if c = '4' then 4 else if c = '5' then 5
  else if c = '6' then 6 else if c = '7' then 7 else if c = '8' then 8
  else if c = '9' then 9 else 10

/-- The digit test `ch >= '0' && ch <= '9'` of the parser loops. -/
def isDigitCh (c : Char) : Bool := decide (dval c < 10)

/-- ASCII digit character of a value below 10 (the renderer side of
`"%u"` formatting). -/
def digitChar48 (n : Nat) : Char :=
  if n = 0 then '0' else if n = 1 then '1' else if n = 2 then '2'
  else if n = 3 then '3' else if n = 4 then '4' else if n = 5 then '5'
  else if n = 6 then '6' else if n = 7 then '7' else if n = 8 then '8'
  else if n = 9 then '9' else '*'

/-- The value accumulator of the C parser loops:
`new = value * 10 + (ch - '0')`, scanning most-significant digit first. -/
def valBE : List Char → Nat → Nat
  | [], acc => acc
  | c :: cs, acc => valBE cs (acc * 10 + dval c)

/-- Decimal rendering of a `Nat`, most-significant digit first, with an
explicit fuel so the definition is structural (`fuel > n` suffices). -/
def natCharsAux : Nat → Nat → List Char
  | 0, _ => []
  | fuel + 1, n =>
    if n < 10 then [digitChar48 n]
    else natCharsAux fuel (n / 10) ++ [digitChar48 (n % 10)]

/-- Canonical decimal digit string of `n` (what `%u` / `std::to_string`
produce). -/
def natChars (n : Nat) : List Char := natCharsAux (n + 1) n

/-- Hexadecimal value of an ASCII hex digit, 16 for anything else. -/
def hval (c : Char) : Nat :=
  if dval c < 10 then dval c
  else if c = 'a' ∨ c = 'A' then 10 else if c = 'b' ∨ c = 'B' then 11
  else if c = 'c' ∨ c = 'C' then 12 else if c = 'd' ∨ c = 'D' then 13
  else if c = 'e' ∨ c = 'E' then 14 else if c = 'f' ∨ c = 'F' then 15
  else 16

/-- Lowercase hex digit character (the `%x` renderer side). -/
def hexDigitChar (n : Nat) : Char :=
  if n < 10 then digitChar48 n
  else if n = 10 then 'a' else if n = 11 then 'b' else if n = 12 then 'c'
  else if n = 13 then 'd' else if n = 14 then 'e' else if n = 15 then 'f'
  else '*'

/-- Hex accumulator `value * 16 + hexdigit`. -/
def hexValBE : List Char → Nat → Nat
  | [], acc => acc
  | c :: cs, acc => hexValBE cs (acc * 16 + hval c)

/-- Lowercase hexadecimal rendering with fuel, as `natCharsAux`. -/
def hexCharsAux : Nat → Nat → List Char
  | 0, _ => []
  | fuel + 1, n =>
    if n < 16 then [hexDigitChar n]
    else hexCharsAux fuel (n / 16) ++ [hexDigitChar (n % 16)]

/-- Canonical lowercase hex digit string of `n`. -/
def hexChars (n : Nat) : List Char := hexCharsAux (n + 1) n

/-- Split a character list at every occurrence of `sep`; total, always
returns a non-empty list of separator-free groups. -/
def splitOnCh (sep : Char) : List Char → List (List Char)
  | [] => [[]]
  | c :: cs =>
    if c = sep then [] :: splitOnCh sep cs
    else
      match splitOnCh sep cs with
      | [] => [[c]]
      | g :: gs => (c :: g) :: gs

/-- Join groups back with `sep` between them: left inverse of
`splitOnCh`. -/
def joinSep (sep : Char) : List (List Char) → List Char
  | [] => []
  | g :: gs =>
    match gs with
    | [] => g
    | _ :: _ => g ++ sep :: joinSep sep gs

/-! ## IPv4 text (platform `inet_pton`/`inet_ntop`, `AF_INET`)

Modelled from the spec: `from_string` delegates literal parsing to the
platform's `inet_pton`, which is not part of this repository.  The
`AF_INET` parser accepts exactly four `.`-separated decimal octet fields;
an octet field must be non-empty, all digits, without a redundant leading
zero (the `saw_digit && *tp == 0` rejection), and its value must stay
within 255 (the per-step `new > 255` rejection, equivalent to checking
the final value because appending digits never decreases it).  The
renderer prints `"%u.%u.%u.%u"`. -/

/-- One decimal octet field of a dotted-quad literal. -/
def parseOctet (cs : List Char) : Option Nat :=
  if cs = [] then none
  else if ¬ cs.all isDigitCh then none
  else if cs.head? = some '0' ∧ cs.length ≠ 1 then none
  else if valBE cs 0 ≤ 255 then some (valBE cs 0) else none

/-- Four valid octet fields make an IPv4 address, in network order. -/
def pton4Groups : List (List Char) → Option (Nat × Nat × Nat × Nat)
  | [g1, g2, g3, g4] =>
    (parseOctet g1).bind fun a =>
    (parseOctet g2).bind fun b =>
    (parseOctet g3).bind fun c =>
    (parseOctet g4).map fun d => (a, b, c, d)
  | _ => none

/-- `inet_pton(AF_INET, ...)`: split on dots, require exactly four valid
octet fields. -/
def inet_pton4 (cs : List Char) : Option (Nat × Nat × Nat × Nat) :=
  pton4Groups (splitOnCh '.' cs)

/-- `inet_ntop(AF_INET, ...)`: canonical dotted quad. -/
def inet_ntop4 : Nat × Nat × Nat × Nat → List Char
  | (a, b, c, d) => natChars a ++ '.' :: natChars b ++ '.' :: natChars c ++ '.' :: natChars d

/-! ## IPv6 text (platform `inet_pton`/`inet_ntop`, `AF_INET6`)

Modelled from the spec: also platform calls.  The parser handles
`:`-separated 16-bit hex groups, one optional `::` zero-run compression
and an optional trailing dotted-quad; the renderer compresses the longest
(leftmost) run of at least two zero groups to `::` and uses the usual
embedded-IPv4 forms.  No claim depends on a successful parse of a
non-wildcard IPv6 literal; these definitions are exercised only on the
wildcard address. -/

/-- One 16-bit hex group: one to four hex digits. -/
def parseHexGroup (cs : List Char) : Option Nat :=
  if cs ≠ [] ∧ cs.length ≤ 4 ∧ cs.all (fun c => decide (hval c < 16)) then
    some (hexValBE cs 0)
  else none

/-- Split at the first `::`, when present. -/
def splitOnDbl : List Char → Option (List Char × List Char)
  | [] => none
  | [_] => none
  | c1 :: c2 :: rest =>
    if c1 = ':' ∧ c2 = ':' then some ([], rest)
    else
      match splitOnDbl (c2 :: rest) with
      | some (a, b) => some ((c1 :: a), b)
      | none => none

/-- Parse a `:`-separated group list into 16-bit words; the final group
may be a dotted quad contributing two words. -/
def parseGroups : List (List Char) → Option (List Nat)
  | [] => some []
  | [g] =>
    match parseHexGroup g with
    | some w => some [w]
    | none =>
      match inet_pton4 g with
      | some (a, b, c, d) => some [a * 256 + b, c * 256 + d]
      | none => none
  | g :: gs =>
    match parseHexGroup g, parseGroups gs with
    | some w, some ws => some (w :: ws)
    | _, _ => none

/-- `inet_pton(AF_INET6, ...)`: yields the sixteen address bytes. -/
def inet_pton6 (cs : List Char) : Option (List Nat) :=
  let toBytes := fun (ws : List Nat) => ws.flatMap (fun w => [w / 256, w % 256])
  match splitOnDbl cs with
  | none =>
    match parseGroups (splitOnCh ':' cs) with
    | some ws => if ws.length = 8 then some (toBytes ws) else none
    | none => none
  | some (pre, post) =>
    let preGs := if pre = [] then [] else splitOnCh ':' pre
    let postGs := if post = [] then [] else splitOnCh ':' post
    match parseGroups preGs, parseGroups postGs with
    | some ws1, some ws2 =>
      if ws1.length + ws2.length ≤ 7 then
        some (toBytes (ws1 ++ List.replicate (8 - ws1.length - ws2.length) 0 ++ ws2))
      else none
    | _, _ => none

/-- The sixteen address bytes paired into eight 16-bit words. -/
def bytePairs : List Nat → List Nat
  | b1 :: b2 :: rest => (b1 * 256 + b2) :: bytePairs rest
  | _ => []

/-- Leftmost longest run of at least two zero words: start and length. -/
def bestZeroRun (ws : List Nat) : Option (Nat × Nat) :=
  let cands := (List.range ws.length).filterMap (fun i =>
    let l := ((ws.drop i).takeWhile (fun w => w == 0)).length
    if 2 ≤ l then some (i, l) else none)
  cands.foldl (fun best c =>
    match best with
    | none => some c
    | some b => if c.2 > b.2 then some c else some b) none

/-- `inet_ntop(AF_INET6, ...)`: hex groups with `::` compression and the
embedded-IPv4 tail forms. -/
def inet_ntop6 (bytes : List Nat) : List Char :=
  let ws := bytePairs bytes
  match bestZeroRun ws with
  | none => joinSep ':' (ws.map hexChars)
  | some (base, len) =>
    let pre := ws.take base
    let post := ws.drop (base + len)
    if base = 0 ∧ (len = 6 ∨ (len = 7 ∧ ws.getD 7 0 ≠ 1) ∨ (len = 5 ∧ ws.getD 5 0 = 65535)) then
      let v4 := joinSep '.' ((bytes.drop 12).map natChars)
      if len = 5 then ':' :: ':' :: (hexChars 65535 ++ ':' :: v4)
      else ':' :: ':' :: v4
    else
      joinSep ':' (pre.map hexChars) ++ ':' :: ':' :: joinSep ':' (post.map hexChars)

/-! ## Socket addresses (`busuto::socket::address`, sockets.hpp/.cpp)

Address family constants as on Linux. -/

def AF_UNSPEC : Nat := 0
def AF_UNIX : Nat := 1
def AF_INET : Nat := 2
def AF_INET6 : Nat := 10

/-- The `sockaddr_storage` of an `address`, abstracted to the fields the
operations read: the family tag, the port in host order, the four IPv4
address bytes and the sixteen IPv6 address bytes.  A default-constructed
address is all zeroes (`AF_UNSPEC`, zero port, zero address).  Bytes that
are meaningless for the current family (for example `b16` of an IPv4
address) are carried but never read by any operation below. -/
structure Address where
  family : Nat := AF_UNSPEC
  b4 : Nat × Nat × Nat × Nat := (0, 0, 0, 0)
  b16 : List Nat := List.replicate 16 0
  port : Nat := 0
  deriving Repr, DecidableEq

namespace Address

/-- `addrlen` (sockets.hpp lines 104-119): the meaningful structure size
for a family — `sizeof(sockaddr_in)`, `sizeof(sockaddr_in6)` and
`sizeof(sockaddr_un)` on Linux, zero otherwise. -/
def addrlen (family : Nat) : Nat :=
  if family = AF_INET then 16
  else if family = AF_INET6 then 28
  else if family = AF_UNIX then 110
  else 0

/-- `address::size()` (sockets.hpp line 234). -/
def size (a : Address) : Nat := addrlen a.family

/-- `address::valid()` (sockets.hpp lines 213-217): unspecified family is
invalid; an IPv4/IPv6 family additionally needs a non-zero port. -/
def valid (a : Address) : Bool :=
  if a.family = AF_UNSPEC then false
  else if (a.family = AF_INET ∨ a.family = AF_INET6) ∧ a.port = 0 then false
  else true

/-- `socket::is_any` (sockets.cpp lines 175-186): unspecified family is
"any"; IPv4/IPv6 are "any" when every address byte is zero; other
families are not. -/
def isAny (a : Address) : Bool :=
  if a.family = AF_UNSPEC then true
  else if a.family = AF_INET then a.b4 = (0, 0, 0, 0)
  else if a.family = AF_INET6 then a.b16.all (fun b => b == 0)
  else false

/-- `address::port(value)` (sockets.cpp lines 51-63): store the port for
IPv4/IPv6, raise `error("unknown address type")` otherwise. -/
def setPort (a : Address) (v : Nat) : Except String Address :=
  if a.family = AF_INET ∨ a.family = AF_INET6 then .ok { a with port := v }
  else .error "unknown address type"

/-- `address::port_if(value)` (sockets.cpp lines 46-49). -/
def setPortIf (a : Address) (v : Nat) : Except String Address :=
  if a.port = 0 then a.setPort v else .ok a

/-- `address::family_if(changed)` (sockets.hpp lines 250-253). -/
def familyIf (a : Address) (changed : Nat) : Address :=
  if a.family = AF_UNSPEC then { a with family := changed } else a

/-- `address::assign(from)` (sockets.cpp lines 20-44): copy the structure
when the source family has a known length, otherwise leave the
destination unchanged (the meaningful fields stand in for the copied
bytes). -/
def assign (dst src : Address) : Address :=
  if src.family = AF_INET ∨ src.family = AF_INET6 ∨ src.family = AF_UNIX then src else dst

/-- `address::operator==` (sockets.hpp lines 255-259): `false` whenever
the two sizes differ, otherwise a byte comparison over the common length,
abstracted to the fields meaningful at that length (a zero length
compares no bytes and reports equality). -/
def beqContent (a b : Address) (len : Nat) : Bool :=
  if len = 0 then true
  else
    a.family = b.family ∧ a.port = b.port ∧
      (if a.family = AF_INET then a.b4 = b.b4
       else if a.family = AF_INET6 then a.b16 = b.b16
       else True)

/-- `address::operator==`. -/
def addrEq (a b : Address) : Bool :=
  if a.size ≠ b.size then false else beqContent a b a.size

/-- `address::operator!=` (sockets.hpp lines 261-265): also `false`
whenever the two sizes differ. -/
def addrNe (a b : Address) : Bool :=
  if a.size ≠ b.size then false else ! beqContent a b a.size

/-- `address::from_string(s, port)` (sockets.cpp lines 65-95): `"*"` is
the IPv4 wildcard, `"[*]"` the IPv6 wildcard; text containing `:`
attempts an IPv6 parse, anything else an IPv4 parse; a failed parse
raises `error("invalid address format: " + s)`. -/
def from_string (s : String) (port : Nat := 0) : Except String Address :=
  if s = "*" then .ok { family := AF_INET, port := port }
  else if s = "[*]" then .ok { family := AF_INET6, port := port }
  else if s.data.contains ':' then
    match inet_pton6 s.data with
    | some bytes => .ok { family := AF_INET6, b16 := bytes, port := port }
    | none => .error ("invalid address format: " ++ s)
  else
    match inet_pton4 s.data with
    | some q => .ok { family := AF_INET, b4 := q, port := port }
    | none => .error ("invalid address format: " ++ s)

/-- `socket::to_string` (sockets.cpp lines 155-173): `"*"` for the
unspecified family; `ip:port` for IPv4 and `[ip]:port` for IPv6, the
port suffix omitted when the port is zero; other families raise
`error("unknown or invalid address")`. -/
def to_string (a : Address) : Except String String :=
  if a.family = AF_UNSPEC then .ok "*"
  else if a.family = AF_INET then
    let buf := String.mk (inet_ntop4 a.b4)
    if a.port ≠ 0 then .ok (buf ++ ":" ++ String.mk (natChars a.port)) else .ok buf
  else if a.family = AF_INET6 then
    let buf := String.mk (inet_ntop6 a.b16)
    if a.port ≠ 0 then .ok ("[" ++ buf ++ "]:" ++ String.mk (natChars a.port)) else .ok buf
  else .error "unknown or invalid address"

end Address

/-! ## Interface lists and `bind_address` (networks.hpp/.cpp)

One node of the system's `getifaddrs` chain, reduced to the fields the
scans read: the name and address pointers (either may be null), the
netmask and the `IFF_MULTICAST` flag. -/

structure Iface where
  name : Option String := none
  addr : Option Address := none
  netmask : Option Address := none
  multicastFlag : Bool := false
  deriving Repr, DecidableEq

/-- `networks::find(id, family, multicast)` (networks.cpp lines 11-21):
linear scan; skip non-multicast entries when `multicast` is requested,
skip entries lacking an address or a name; an entry whose address family
is IPv4 or IPv6 matches a requested family of `AF_UNSPEC`; otherwise the
families must be equal, and the names must match. -/
def findIface (nets : List Iface) (id : String) (family : Nat) (multicast : Bool) : Option Iface :=
  match nets with
  | [] => none
  | e :: rest =>
    if multicast ∧ ¬ e.multicastFlag then findIface rest id family multicast
    else
      match e.addr, e.name with
      | some a, some nm =>
        let ifam :=
          if family = AF_UNSPEC ∧ (a.family = AF_INET ∨ a.family = AF_INET6) then AF_UNSPEC
          else a.family
        if id = nm ∧ family = ifam then some e
        else findIface rest id family multicast
      | _, _ => findIface rest id family multicast

/-- `busuto::bind_address` (networks.cpp lines 52-77): resolve an
endpoint token.  `any` is the default-constructed address; `"[*]"` with
an unspecified family becomes the IPv6 wildcard with the port, `"*"`
becomes the wildcard of the requested family (IPv4 when unspecified);
a token containing `.` (family IPv4 or any) or `:` (family IPv6 or any)
is parsed as a literal; otherwise the token is an interface name looked
up with `find`, whose address gets the port; with nothing found, `any`
is returned unchanged. -/
def bind_address (nets : List Iface) (id : String) (port : Nat := 0)
    (family : Nat := AF_UNSPEC) (multicast : Bool := false) : Except String Address :=
  let any : Address := {}
  if id = "[*]" ∧ family = AF_UNSPEC then
    (any.familyIf AF_INET6).setPort port
  else if id = "*" then
    let fam := if family = AF_UNSPEC then AF_INET else family
    (any.familyIf fam).setPort port
  else if (family = AF_INET ∨ family = AF_UNSPEC) ∧ id.data.contains '.' then
    Address.from_string id port
  else if (family = AF_INET6 ∨ family = AF_UNSPEC) ∧ id.data.contains ':' then
    Address.from_string id port
  else
    match findIface nets id family multicast with
    | some ifa =>
      match ifa.addr with
      | some a => a.setPort port
      | none => .ok any
    | none => .ok any

/-! ## Bounded resolver (resolver.hpp, sync.hpp)

The process-wide `std::counting_semaphore resolvers` is modelled by its
available-permit count; `semaphore_scope` returns the permit by
incrementing the count. -/

/-- `resolvers.try_acquire()`: take a permit when one is free. -/
def tryAcquire (avail : Nat) : Bool × Nat :=
  if avail > 0 then (true, avail - 1) else (false, avail)

/-- `semaphore_scope` destructor: return the permit. -/
def releasePermit (avail : Nat) : Nat := avail + 1

/-- Outcome of the permit-acquisition prefix of `async_resolver`. -/
inductive AcquireOutcome where
  | acquired (remaining : Nat)
  | raisedTimeout
  | stillWaiting
  deriving Repr, DecidableEq

/-- The permit-acquisition prefix of `async_resolver` (resolver.hpp
lines 188-194).  `timeout < 0` calls `acquire()`: take a permit now or
keep waiting until one is released — never a timeout.  `timeout == 0`
calls `try_acquire()`: fail with `resolver_timeout` at once when no
permit is free.  `timeout > 0` calls `try_acquire_for(timeout)`:
`freedInWindow` says whether a permit became free before the wait
expired; on expiry `resolver_timeout` is raised.  Real durations are
abstracted into `freedInWindow`. -/
def asyncResolverAcquire (timeout : Int) (avail : Nat) (freedInWindow : Bool) : AcquireOutcome :=
  if timeout < 0 then
    match tryAcquire avail with
    | (true, rest) => .acquired rest
    | (false, _) => if freedInWindow then .acquired 0 else .stillWaiting
  else if timeout = 0 then
    match tryAcquire avail with
    | (true, rest) => .acquired rest
    | (false, _) => .raisedTimeout
  else
    match tryAcquire avail with
    | (true, rest) => .acquired rest
    | (false, _) => if freedInWindow then .acquired 0 else .raisedTimeout

/-! ## Lemmas: canonical decimal text -/

theorem dval_lt_ten (c : Char) (h : isDigitCh c = true) : dval c < 10 := by
  simpa [isDigitCh] using h

theorem digitChar48_dval (c : Char) (h : isDigitCh c = true) : digitChar48 (dval c) = c := by
  have h' : dval c < 10 := dval_lt_ten c h
  by_cases h0 : c = '0'
  · subst h0; decide
  by_cases h1 : c = '1'
  · subst h1; decide
  by_cases h2 : c = '2'
  · subst h2; decide
  by_cases h3 : c = '3'
  · subst h3; decide
  by_cases h4 : c = '4'
  · subst h4; decide
  by_cases h5 : c = '5'
  · subst h5; decide
  by_cases h6 : c = '6'
  · subst h6; decide
  by_cases h7 : c = '7'
  · subst h7; decide
  by_cases h8 : c = '8'
  · subst h8; decide
  by_cases h9 : c = '9'
  · subst h9; decide
  exfalso
  have : dval c = 10 := by
    simp only [dval, h0, h1, h2, h3, h4, h5, h6, h7, h8, h9, if_false]
  omega

theorem dval_pos_of_ne_zero (c : Char) (h : isDigitCh c = true) (hz : c ≠ '0') :
    0 < dval c := by
  have h' : dval c < 10 := dval_lt_ten c h
  by_cases h1 : c = '1'
  · subst h1; decide
  by_cases h2 : c = '2'
  · subst h2; decide
  by_cases h3 : c = '3'
  · subst h3; decide
  by_cases h4 : c = '4'
  · subst h4; decide
  by_cases h5 : c = '5'
  · subst h5; decide
  by_cases h6 : c = '6'
  · subst h6; decide
  by_cases h7 : c = '7'
  · subst h7; decide
  by_cases h8 : c = '8'
  · subst h8; decide
  by_cases h9 : c = '9'
  · subst h9; decide
  exfalso
  have : dval c = 10 := by
    simp only [dval, hz, h1, h2, h3, h4, h5, h6, h7, h8, h9, if_false]
  omega

theorem natCharsAux_congr : ∀ f1 f2 n, n < f1 → n < f2 →
    natCharsAux f1 n = natCharsAux f2 n := by
  intro f1
  induction f1 with
  | zero => intro f2 n h; omega
  | succ f1 ih =>
    intro f2 n h1 h2
    match f2, h2 with
    | f2 + 1, h2 =>
      show natCharsAux (f1 + 1) n = natCharsAux (f2 + 1) n
      by_cases hn : n < 10
      · simp [natCharsAux, hn]
      · have hrec : n / 10 < n := Nat.div_lt_self (by omega) (by omega)
        simp only [natCharsAux, hn, if_false]
        rw [ih f2 (n / 10) (by omega) (by omega)]

theorem natChars_eq (n : Nat) :
    natChars n = if n < 10 then [digitChar48 n]
                 else natChars (n / 10) ++ [digitChar48 (n % 10)] := by
  by_cases hn : n < 10
  · simp [natChars, natCharsAux, hn]
  · have hrec : n / 10 < n := Nat.div_lt_self (by omega) (by omega)
    show natCharsAux (n + 1) n = _
    have h1 : natCharsAux (n + 1) n = natCharsAux n (n / 10) ++ [digitChar48 (n % 10)] := by
      simp only [natCharsAux, hn, if_false]
    rw [h1, natCharsAux_congr n (n / 10 + 1) (n / 10) (by omega) (by omega), if_neg hn]
    rfl

theorem valBE_append (cs : List Char) (c : Char) :
    ∀ acc, valBE (cs ++ [c]) acc = (valBE cs acc) * 10 + dval c := by
  induction cs with
  | nil => intro acc; simp [valBE]
  | cons c' cs ih => intro acc; simp [valBE, ih]

theorem le_valBE (cs : List Char) : ∀ acc, acc ≤ valBE cs acc := by
  induction cs with
  | nil => intro acc; simp [valBE]
  | cons c cs ih =>
    intro acc
    calc acc ≤ acc * 10 + dval c := by omega
    _ ≤ valBE cs (acc * 10 + dval c) := ih _
    _ = valBE (c :: cs) acc := rfl

/-- A non-empty all-digit string whose leading digit is `'0'` only when
it is the single digit `"0"` renders back from its value unchanged:
canonical decimal text round-trips through `valBE` and `natChars`. -/
theorem natChars_valBE (cs : List Char) (hne : cs ≠ [])
    (hdig : ∀ c ∈ cs, isDigitCh c = true)
    (hlead : cs.head? = some '0' → cs.length = 1) :
    natChars (valBE cs 0) = cs := by
  induction cs using List.reverseRecOn with
  | nil => exact absurd rfl hne
  | append_singleton cs' c ih =>
    match cs', hlead with
    | [], _ =>
      have hc : isDigitCh c = true := hdig c (by simp)
      have hc10 : dval c < 10 := dval_lt_ten c hc
      simp only [List.nil_append, valBE, Nat.zero_mul, Nat.zero_add]
      rw [natChars_eq]
      simp [hc10, digitChar48_dval c hc]
    | c0 :: cs'', hlead =>
      have hlen : (c0 :: cs'' ++ [c]).length = cs''.length + 2 := by simp
      have hc0 : c0 ≠ '0' := by
        intro h0
        have := hlead (by simp [h0])
        omega
      have hdig' : ∀ x ∈ c0 :: cs'', isDigitCh x = true := by
        intro x hx
        apply hdig
        rcases List.mem_cons.mp hx with h | h
        · exact List.mem_cons.mpr (Or.inl h)
        · exact List.mem_cons.mpr (Or.inr (List.mem_append.mpr (Or.inl h)))
      have hc : isDigitCh c = true := hdig c (by simp)
      have hc10 : dval c < 10 := dval_lt_ten c hc
      have hv' : 0 < valBE (c0 :: cs'') 0 := by
        have h1 : 0 < dval c0 := dval_pos_of_ne_zero c0 (hdig' c0 (by simp)) hc0
        calc 0 < dval c0 := h1
        _ ≤ valBE cs'' (dval c0) := le_valBE _ _
        _ = valBE (c0 :: cs'') 0 := by simp [valBE]
      have hval : valBE (c0 :: cs'' ++ [c]) 0 = (valBE (c0 :: cs'') 0) * 10 + dval c := by
        have := valBE_append (c0 :: cs'') c 0
        simpa using this
      rw [hval, natChars_eq]
      have hge : ¬ ((valBE (c0 :: cs'') 0) * 10 + dval c < 10) := by omega
      have hdivq : ((valBE (c0 :: cs'') 0) * 10 + dval c) / 10 = valBE (c0 :: cs'') 0 := by
        omega
      have hmodq : ((valBE (c0 :: cs'') 0) * 10 + dval c) % 10 = dval c := by
        omega
      rw [if_neg hge, hdivq, hmodq, digitChar48_dval c hc,
        ih (by simp) hdig' (by intro h; simp at h; exact absurd h hc0)]

/-! ## Lemmas: splitting and joining on a separator -/

theorem splitOnCh_ne_nil (sep : Char) (cs : List Char) : splitOnCh sep cs ≠ [] := by
  cases cs with
  | nil => simp [splitOnCh]
  | cons c cs =>
    by_cases hc : c = sep
    · simp [splitOnCh, hc]
    · simp only [splitOnCh, hc, if_false]
      cases splitOnCh sep cs <;> simp

theorem joinSep_splitOnCh (sep : Char) (cs : List Char) :
    joinSep sep (splitOnCh sep cs) = cs := by
  induction cs with
  | nil => simp [splitOnCh, joinSep]
  | cons c cs ih =>
    by_cases hc : c = sep
    · subst hc
      simp only [splitOnCh, if_pos rfl]
      have h := splitOnCh_ne_nil c cs
      match hsp : splitOnCh c cs with
      | [] => exact absurd hsp h
      | g :: gs =>
        show joinSep c ([] :: g :: gs) = c :: cs
        rw [joinSep]
        rw [hsp] at ih
        simpa using ih
    · simp only [splitOnCh, hc, if_false]
      have h := splitOnCh_ne_nil sep cs
      match hsp : splitOnCh sep cs with
      | [] => exact absurd hsp h
      | g :: gs =>
        rw [hsp] at ih
        cases gs with
        | nil =>
          show joinSep sep [c :: g] = c :: cs
          rw [joinSep] at ih ⊢
          simpa using ih
        | cons g' gs' =>
          show joinSep sep ((c :: g) :: g' :: gs') = c :: cs
          rw [joinSep] at ih ⊢
          simpa using ih

theorem mem_joinSep (sep : Char) (gs : List (List Char)) (c : Char)
    (h : c ∈ joinSep sep gs) : (∃ g ∈ gs, c ∈ g) ∨ c = sep := by
  induction gs with
  | nil => simp [joinSep] at h
  | cons g gs ih =>
    cases gs with
    | nil =>
      rw [joinSep] at h
      exact Or.inl ⟨g, by simp, h⟩
    | cons g' gs' =>
      rw [joinSep] at h
      rcases List.mem_append.mp h with h1 | h1
      · exact Or.inl ⟨g, by simp, h1⟩
      · rcases List.mem_cons.mp h1 with h2 | h2
        · exact Or.inr h2
        · rcases ih h2 with ⟨g2, hg2, hc2⟩ | h3
          · exact Or.inl ⟨g2, List.mem_cons.mpr (Or.inr hg2), hc2⟩
          · exact Or.inr h3

/-! ## Lemmas: IPv4 text round trip -/

theorem parseOctet_some (cs : List Char) (v : Nat) (h : parseOctet cs = some v) :
    cs ≠ [] ∧ (∀ c ∈ cs, isDigitCh c = true) ∧
      (cs.head? = some '0' → cs.length = 1) ∧ valBE cs 0 = v ∧ v ≤ 255 := by
  unfold parseOctet at h
  split_ifs at h with h1 h2 h3 h4
  · injection h with h'
    refine ⟨h1, ?_, ?_, h', by omega⟩
    · intro c hc
      have := List.all_eq_true.mp (by simpa using h2) c hc
      simpa using this
    · intro hh
      by_contra hl
      exact h3 ⟨hh, hl⟩

theorem pton4Groups_some (gs : List (List Char)) (q : Nat × Nat × Nat × Nat)
    (h : pton4Groups gs = some q) :
    ∃ g1 g2 g3 g4, gs = [g1, g2, g3, g4] ∧
      parseOctet g1 = some q.1 ∧ parseOctet g2 = some q.2.1 ∧
      parseOctet g3 = some q.2.2.1 ∧ parseOctet g4 = some q.2.2.2 := by
  match gs with
  | [g1, g2, g3, g4] =>
    refine ⟨g1, g2, g3, g4, rfl, ?_⟩
    simp only [pton4Groups, Option.bind_eq_some, Option.map_eq_some'] at h
    obtain ⟨a, ha, b, hb, c, hc, d, hd, hq⟩ := h
    subst hq
    exact ⟨ha, hb, hc, hd⟩
  | [] => simp [pton4Groups] at h
  | [_] => simp [pton4Groups] at h
  | [_, _] => simp [pton4Groups] at h
  | [_, _, _] => simp [pton4Groups] at h
  | _ :: _ :: _ :: _ :: _ :: _ => simp [pton4Groups] at h

/-- Every character of an accepted dotted-quad literal is a digit or a
dot. -/
theorem inet_pton4_chars (cs : List Char) (q : Nat × Nat × Nat × Nat)
    (h : inet_pton4 cs = some q) :
    ∀ c ∈ cs, isDigitCh c = true ∨ c = '.' := by
  obtain ⟨g1, g2, g3, g4, hsp, h1, h2, h3, h4⟩ := pton4Groups_some _ q h
  intro x hx
  have hj : joinSep '.' [g1, g2, g3, g4] = cs := by
    rw [← hsp]; exact joinSep_splitOnCh '.' cs
  rw [← hj] at hx
  rcases mem_joinSep '.' [g1, g2, g3, g4] x hx with ⟨g, hg, hxg⟩ | hdot
  · left
    simp only [List.mem_cons, List.not_mem_nil, or_false] at hg
    rcases hg with h' | h' | h' | h'
    · exact (parseOctet_some g1 _ h1).2.1 x (h' ▸ hxg)
    · exact (parseOctet_some g2 _ h2).2.1 x (h' ▸ hxg)
    · exact (parseOctet_some g3 _ h3).2.1 x (h' ▸ hxg)
    · exact (parseOctet_some g4 _ h4).2.1 x (h' ▸ hxg)
  · right; exact hdot

/-- Rendering inverts parsing: an accepted dotted-quad literal is
reproduced exactly by `inet_ntop4`. -/
theorem inet_ntop4_pton4 (cs : List Char) (q : Nat × Nat × Nat × Nat)
    (h : inet_pton4 cs = some q) : inet_ntop4 q = cs := by
  obtain ⟨g1, g2, g3, g4, hsp, h1, h2, h3, h4⟩ := pton4Groups_some _ q h
  obtain ⟨ha1, ha2, ha3, ha4, _⟩ := parseOctet_some g1 _ h1
  obtain ⟨hb1, hb2, hb3, hb4, _⟩ := parseOctet_some g2 _ h2
  obtain ⟨hc1, hc2, hc3, hc4, _⟩ := parseOctet_some g3 _ h3
  obtain ⟨hd1, hd2, hd3, hd4, _⟩ := parseOctet_some g4 _ h4
  have hga : natChars q.1 = g1 := ha4 ▸ natChars_valBE g1 ha1 ha2 ha3
  have hgb : natChars q.2.1 = g2 := hb4 ▸ natChars_valBE g2 hb1 hb2 hb3
  have hgc : natChars q.2.2.1 = g3 := hc4 ▸ natChars_valBE g3 hc1 hc2 hc3
  have hgd : natChars q.2.2.2 = g4 := hd4 ▸ natChars_valBE g4 hd1 hd2 hd3
  have hj : joinSep '.' [g1, g2, g3, g4] = cs := by
    rw [← hsp]; exact joinSep_splitOnCh '.' cs
  match q with
  | (a, b, c, d) =>
    show natChars a ++ '.' :: natChars b ++ '.' :: natChars c ++ '.' :: natChars d = cs
    rw [hga, hgb, hgc, hgd, ← hj]
    simp [joinSep]

/-! ## Lemmas: timer worker catch-up arithmetic -/

theorem runStep_due (d now : Nat) (e : TimerEntry) (rest : List (Nat × TimerEntry))
    (hd : d ≤ now) (hp : e.period ≠ 0) :
    runStep now ((d, e) :: rest) = some (e, mmInsert (d + e.period) e rest) := by
  simp [runStep, hd, hp]

theorem fireCount_single_periodic (p i now : Nat) (hp : 0 < p) :
    ∀ fuel d, d ≤ now → (now - d) / p + 1 ≤ fuel →
      fireCount now fuel [(d, ⟨i, p⟩)] = (now - d) / p + 1 := by
  intro fuel
  induction fuel with
  | zero => intro d hd hf; exact absurd hf (Nat.not_succ_le_zero _)
  | succ fuel ih =>
    intro d hd hf
    have hstep : runStep now [(d, ⟨i, p⟩)] = some (⟨i, p⟩, [(d + p, ⟨i, p⟩)]) := by
      have := runStep_due d now ⟨i, p⟩ [] hd (by simp; omega)
      simpa [mmInsert] using this
    have hunf : fireCount now (fuel + 1) [(d, ⟨i, p⟩)] =
        fireCount now fuel [(d + p, ⟨i, p⟩)] + 1 := by
      simp [fireCount, hstep]
    rw [hunf]
    by_cases hcase : d + p ≤ now
    · have hsplit : now - d = (now - (d + p)) + p := by omega
      have h1 : (now - d) / p = (now - (d + p)) / p + 1 := by
        rw [hsplit, Nat.add_div_right _ hp]
      rw [ih (d + p) hcase (by omega)]
      omega
    · have h0 : (now - d) / p = 0 := Nat.div_eq_of_lt (by omega)
      have hz : fireCount now fuel [(d + p, ⟨i, p⟩)] = 0 := by
        cases fuel with
        | zero => rfl
        | succ f => simp [fireCount, runStep, hcase]
      omega

/-! ## Lemmas: timer id monotonicity -/

theorem applyTimerOp_next_le (st : TimerState) (op : TimerOp) :
    st.next ≤ (applyTimerOp st op).1.next := by
  cases op with
  | opAt e => simp [applyTimerOp, scheduleTimer]
  | opOnce n per => simp [applyTimerOp, scheduleTimer]
  | opPeriodic n per sh => simp [applyTimerOp, scheduleTimer]
  | opCancel tid => simp [applyTimerOp]
  | opFinish tid => simp [applyTimerOp]
  | opReset n tid o iv => simp [applyTimerOp]
  | opRefresh n tid => simp [applyTimerOp]
  | opClear => simp [applyTimerOp]
  | opRunStep n =>
    simp only [applyTimerOp]
    cases runStep n st.timers with
    | none => simp
    | some pr => cases pr; simp

theorem applyTimerOp_issue (st : TimerState) (op : TimerOp) (i : Nat)
    (h : (applyTimerOp st op).2 = some i) :
    i = st.next ∧ (applyTimerOp st op).1.next = st.next + 1 := by
  cases op with
  | opAt e => simp [applyTimerOp, scheduleTimer] at h ⊢; omega
  | opOnce n per => simp [applyTimerOp, scheduleTimer] at h ⊢; omega
  | opPeriodic n per sh => simp [applyTimerOp, scheduleTimer] at h ⊢; omega
  | opCancel tid => simp [applyTimerOp] at h
  | opFinish tid => simp [applyTimerOp] at h
  | opReset n tid o iv => simp [applyTimerOp] at h
  | opRefresh n tid => simp [applyTimerOp] at h
  | opClear => simp [applyTimerOp] at h
  | opRunStep n =>
    simp only [applyTimerOp] at h
    cases hr : runStep n st.timers with
    | none => rw [hr] at h; simp at h
    | some pr => cases pr; rw [hr] at h; simp at h

theorem issuedIds_lb (ops : List TimerOp) : ∀ (st : TimerState) (i : Nat),
    i ∈ issuedIds st ops → st.next ≤ i := by
  induction ops with
  | nil => intro st i h; simp [issuedIds] at h
  | cons op ops ih =>
    intro st i h
    unfold issuedIds at h
    rcases happ : applyTimerOp st op with ⟨st', r⟩
    rw [happ] at h
    have hle : st.next ≤ st'.next := by
      have := applyTimerOp_next_le st op
      rw [happ] at this
      exact this
    cases r with
    | none =>
      simp only at h
      exact le_trans hle (ih st' i h)
    | some j =>
      simp only at h
      rcases List.mem_cons.mp h with h1 | h1
      · subst h1
        have := applyTimerOp_issue st op i (by rw [happ])
        omega
      · exact le_trans hle (ih st' i h1)

theorem issuedIds_pairwise (ops : List TimerOp) : ∀ st : TimerState,
    List.Pairwise (· < ·) (issuedIds st ops) := by
  induction ops with
  | nil => intro st; simp [issuedIds]
  | cons op ops ih =>
    intro st
    unfold issuedIds
    rcases happ : applyTimerOp st op with ⟨st', r⟩
    cases r with
    | none => simpa only using ih st'
    | some j =>
      simp only
      refine List.Pairwise.cons ?_ (ih st')
      intro x hx
      have hj := applyTimerOp_issue st op j (by rw [happ])
      have hn : st'.next = st.next + 1 := by
        have := hj.2; rw [happ] at this; exact this
      have hx' := issuedIds_lb ops st' x hx
      omega

/-! ## Claims about the timer engine -/

/-- C1 (counterexample).  The claim says a periodic entry popped past its
deadline is re-armed at `now + period` and fires only once however many
periods were missed.  At `now = 100`, the entry with deadline `0` and
period `10` is re-armed at `0 + 10 = 10` — not `100 + 10 = 110` — and the
worker, iterated at that same instant, fires it eleven times (once per
missed period), not once. -/
theorem timer_no_catchup_counterexample :
    runStep 100 [(0, ⟨0, 10⟩)] = some (⟨0, 10⟩, [(10, ⟨0, 10⟩)]) ∧
    (10 : Nat) ≠ 100 + 10 ∧
    fireCount 100 12 [(0, ⟨0, 10⟩)] = 11 ∧ (11 : Nat) ≠ 1 := by
  refine ⟨by decide, by decide, by decide, by decide⟩

/-- C1 (amended).  When the worker pops a periodic entry whose deadline
`d` has passed, it re-arms it at `d + period` — the missed deadline plus
the period, not the current time — and consequently an entry that missed
several periods fires once per missed period until it catches up: with a
single periodic entry of period `p > 0` armed for `d ≤ now`, the worker
run at time `now` fires it exactly `(now − d) / p + 1` times. -/
theorem timer_rearm_from_missed_deadline :
    (∀ (d now : Nat) (e : TimerEntry) (rest : List (Nat × TimerEntry)),
      d ≤ now → e.period ≠ 0 →
      runStep now ((d, e) :: rest) = some (e, mmInsert (d + e.period) e rest)) ∧
    (∀ (p i now fuel d : Nat), 0 < p → d ≤ now → (now - d) / p + 1 ≤ fuel →
      fireCount now fuel [(d, ⟨i, p⟩)] = (now - d) / p + 1) :=
  ⟨fun d now e rest hd hp => runStep_due d now e rest hd hp,
   fun p i now fuel d hp hd hf => fireCount_single_periodic p i now hp fuel d hd hf⟩

/-- C1 (witness). -/
theorem timer_rearm_from_missed_deadline_witness :
    runStep 100 ((0, (⟨0, 10⟩ : TimerEntry)) :: []) =
      some ((⟨0, 10⟩ : TimerEntry), mmInsert (0 + (10 : Nat)) ⟨0, 10⟩ []) ∧
    fireCount 100 12 [(5, ⟨3, 10⟩)] = (100 - 5) / 10 + 1 :=
  ⟨timer_rearm_from_missed_deadline.1 0 100 ⟨0, 10⟩ [] (by decide) (by decide),
   timer_rearm_from_missed_deadline.2 10 3 100 12 5 (by decide) (by decide) (by decide)⟩

/-- C6 (counterexample).  The claim says `refresh` on a present, periodic
but already-expired entry reports failure.  At `now = 100`, refreshing
the periodic entry with id 1, deadline 50 and period 10 removes the entry
and reports `true`, not failure. -/
theorem timer_refresh_expired_counterexample :
    refreshTimer 100 1 [(50, ⟨1, 10⟩)] = (true, []) ∧ true ≠ false := by
  refine ⟨by decide, by decide⟩

/-- C6 (amended).  `refresh(id)` returns `false` untouched when the id is
absent or the entry's period is zero; it re-arms an unexpired periodic
entry at `now + period` and returns `true`; and on a periodic entry whose
deadline has already passed it removes the entry without re-arming and
still returns `true` (not failure). -/
theorem timer_refresh_behavior : ∀ (now tid : Nat) (ts : List (Nat × TimerEntry)),
    (findFirstById ts tid = none → refreshTimer now tid ts = (false, ts)) ∧
    (∀ (k : Nat) (e : TimerEntry), findFirstById ts tid = some (k, e) →
      (e.period = 0 → refreshTimer now tid ts = (false, ts)) ∧
      (e.period ≠ 0 → now < k →
        refreshTimer now tid ts = (true, mmInsert (now + e.period) e (eraseFirstById ts tid))) ∧
      (e.period ≠ 0 → k ≤ now →
        refreshTimer now tid ts = (true, eraseFirstById ts tid))) := by
  intro now tid ts
  refine ⟨?_, ?_⟩
  · intro h; simp [refreshTimer, h]
  · intro k e h
    refine ⟨?_, ?_, ?_⟩
    · intro hp; simp [refreshTimer, h, hp]
    · intro hp hk
      simp [refreshTimer, h, hp, show k > now from hk]
    · intro hp hk
      simp [refreshTimer, h, hp, show ¬ k > now by omega]

/-- C6 (witness). -/
theorem timer_refresh_behavior_witness :
    refreshTimer 100 7 [] = (false, []) ∧
    refreshTimer 100 1 [(150, ⟨1, 10⟩)] =
      (true, mmInsert (100 + (⟨1, 10⟩ : TimerEntry).period) ⟨1, 10⟩
        (eraseFirstById [(150, ⟨1, 10⟩)] 1)) ∧
    refreshTimer 100 1 [(50, ⟨1, 10⟩)] = (true, eraseFirstById [(50, ⟨1, 10⟩)] 1) :=
  ⟨(timer_refresh_behavior 100 7 []).1 (by decide),
   ((timer_refresh_behavior 100 1 [(150, ⟨1, 10⟩)]).2 150 ⟨1, 10⟩ (by decide)).2.1
     (by decide) (by decide),
   ((timer_refresh_behavior 100 1 [(50, ⟨1, 10⟩)]).2 50 ⟨1, 10⟩ (by decide)).2.2
     (by decide) (by decide)⟩

/-- C9.  Over any sequence of timer operations — scheduling via
`at`/`once`/`periodic`, cancellation, finishing, resetting, refreshing,
clearing and worker passes — started from a fresh timer instance, the ids
handed out are pairwise strictly increasing in call order; hence they are
pairwise distinct and an id, once handed out (and later cancelled or
finished or fired), is never handed out again for the lifetime of the
instance. -/
theorem timer_ids_unique_increasing (ops : List TimerOp) :
    List.Pairwise (· < ·) (issuedIds ⟨[], 0⟩ ops) :=
  issuedIds_pairwise ops ⟨[], 0⟩

/-- C9 (witness). -/
theorem timer_ids_unique_increasing_witness :
    List.Pairwise (· < ·) (issuedIds ⟨[], 0⟩
      [.opOnce 0 5, .opPeriodic 0 7 0, .opCancel 0, .opRefresh 3 1, .opOnce 9 1]) :=
  timer_ids_unique_increasing [.opOnce 0 5, .opPeriodic 0 7 0, .opCancel 0, .opRefresh 3 1, .opOnce 9 1]

/-! ## Claims about the task queue -/

/-- C3.  `dispatch(task, max_depth)` returns `false` when the queue is
not running and when a nonzero `max_depth` is already reached, and
otherwise appends the task at the back and returns `true`; `priority`
inserts at the front regardless of depth and fails only when not
running.  (Both are total functions of the guarded state: no exception
path exists.) -/
theorem tasks_dispatch_priority_behavior :
    ∀ (α : Type) (st : TasksState α) (task : α) (max : Nat),
    (st.running = false → dispatchTask task max st = (false, st) ∧
      priorityTask task st = (false, st)) ∧
    (st.running = true → max ≠ 0 → max ≤ st.queue.length →
      dispatchTask task max st = (false, st)) ∧
    (st.running = true → (max = 0 ∨ st.queue.length < max) →
      dispatchTask task max st = (true, { st with queue := st.queue ++ [task] })) ∧
    (st.running = true →
      priorityTask task st = (true, { st with queue := task :: st.queue })) := by
  intro α st task max
  refine ⟨?_, ?_, ?_, ?_⟩
  · intro h
    constructor <;> simp [dispatchTask, priorityTask, h]
  · intro h hm hlen
    simp [dispatchTask, h, hm, hlen]
  · intro h hm
    rcases hm with hm | hm
    · simp [dispatchTask, h, hm]
    · have : ¬ (max ≠ 0 ∧ st.queue.length ≥ max) := by omega
      simp [dispatchTask, h, this]
  · intro h
    simp [priorityTask, h]

/-- C3 (witness). -/
theorem tasks_dispatch_priority_behavior_witness :
    dispatchTask 9 0 (⟨false, [1, 2]⟩ : TasksState Nat) = (false, ⟨false, [1, 2]⟩) ∧
    dispatchTask 9 2 (⟨true, [1, 2]⟩ : TasksState Nat) = (false, ⟨true, [1, 2]⟩) ∧
    dispatchTask 9 3 (⟨true, [1, 2]⟩ : TasksState Nat) = (true, ⟨true, [1, 2, 9]⟩) ∧
    priorityTask 9 (⟨true, [1, 2]⟩ : TasksState Nat) = (true, ⟨true, [9, 1, 2]⟩) :=
  ⟨((tasks_dispatch_priority_behavior Nat ⟨false, [1, 2]⟩ 9 0).1 rfl).1,
   (tasks_dispatch_priority_behavior Nat ⟨true, [1, 2]⟩ 9 2).2.1 rfl (by decide) (by decide),
   (tasks_dispatch_priority_behavior Nat ⟨true, [1, 2]⟩ 9 3).2.2.1 rfl (Or.inr (by decide)),
   (tasks_dispatch_priority_behavior Nat ⟨true, [1, 2]⟩ 9 0).2.2.2 rfl⟩

/-! ## Claims about the bounded resolver -/

/-- C2.  `async_resolver` raises `ResolverTimeout` exactly as the spec
says: with `timeout == 0` it raises iff no permit is free right now;
with `timeout < 0` it never raises (it blocks); with `timeout > 0` it
raises iff no permit is free now and none is released within the wait
window.  The capacity-1 scenario: with the one permit held a
`timeout == 0` call raises, and after the permit is released the same
call acquires.  (Real durations are abstracted into `freedInWindow`; the
raise/no-raise decision structure is what is verified.) -/
theorem resolver_timeout_semantics :
    (∀ (avail : Nat) (freed : Bool),
      asyncResolverAcquire 0 avail freed = .raisedTimeout ↔ avail = 0) ∧
    (∀ (t : Int) (avail : Nat) (freed : Bool), t < 0 →
      asyncResolverAcquire t avail freed ≠ .raisedTimeout) ∧
    (∀ (t : Int) (avail : Nat) (freed : Bool), 0 < t →
      (asyncResolverAcquire t avail freed = .raisedTimeout ↔ avail = 0 ∧ freed = false)) ∧
    (asyncResolverAcquire 0 0 false = .raisedTimeout ∧
      asyncResolverAcquire 0 (releasePermit 0) false = .acquired 0) := by
  refine ⟨?_, ?_, ?_, by decide, by decide⟩
  · intro avail freed
    by_cases ha : avail > 0 <;>
      simp [asyncResolverAcquire, tryAcquire, ha] <;> omega
  · intro t avail freed ht
    by_cases ha : avail > 0
    · simp [asyncResolverAcquire, tryAcquire, ha, ht]
    · simp only [asyncResolverAcquire, tryAcquire, ha, if_neg ha, if_pos ht]
      cases freed <;> simp
  · intro t avail freed ht
    have ht1 : ¬ t < 0 := by omega
    have ht2 : ¬ t = 0 := by omega
    by_cases ha : avail > 0
    · simp [asyncResolverAcquire, tryAcquire, ha, ht1, ht2]
      omega
    · cases freed <;> simp [asyncResolverAcquire, tryAcquire, ha, ht1, ht2]
      omega

/-- C2 (witness). -/
theorem resolver_timeout_semantics_witness :
    asyncResolverAcquire 0 0 true = .raisedTimeout ∧
    asyncResolverAcquire (-1) 0 false ≠ .raisedTimeout ∧
    asyncResolverAcquire 5 0 false = .raisedTimeout :=
  ⟨(resolver_timeout_semantics.1 0 true).mpr rfl,
   resolver_timeout_semantics.2.1 (-1) 0 false (by decide),
   (resolver_timeout_semantics.2.2.1 5 0 false (by decide)).mpr ⟨rfl, rfl⟩⟩

/-! ## Claims about address comparison -/

/-- C10.  When the stored families of two addresses imply different
structure sizes (for example IPv4 against IPv6), both `operator==` and
`operator!=` return `false`, so `!=` is not the logical negation of `==`
there; for equal sizes the two operators do negate each other. -/
theorem address_eq_ne_size_mismatch : ∀ a b : Address,
    (Address.addrlen a.family ≠ Address.addrlen b.family →
      Address.addrEq a b = false ∧ Address.addrNe a b = false ∧
      Address.addrNe a b ≠ (! Address.addrEq a b)) ∧
    (Address.addrlen a.family = Address.addrlen b.family →
      Address.addrNe a b = (! Address.addrEq a b)) := by
  intro a b
  constructor
  · intro h
    simp [Address.addrEq, Address.addrNe, Address.size, h]
  · intro h
    simp [Address.addrEq, Address.addrNe, Address.size, h]

/-- C10 (witness). -/
theorem address_eq_ne_size_mismatch_witness :
    Address.addrEq { family := AF_INET, port := 1 } { family := AF_INET6, port := 1 } = false ∧
    Address.addrNe { family := AF_INET, port := 1 } { family := AF_INET6, port := 1 } = false ∧
    Address.addrNe { family := AF_INET, port := 1 } { family := AF_INET6, port := 1 } ≠
      (! Address.addrEq { family := AF_INET, port := 1 } { family := AF_INET6, port := 1 }) :=
  (address_eq_ne_size_mismatch { family := AF_INET, port := 1 }
    { family := AF_INET6, port := 1 }).1 (by decide)

/-! ## Claims about address validity -/

/-- C5 (counterexample).  The claim's exception says an address
constructed from the wildcard form `"*"` is valid even with a zero port;
but `from_string("*", 0)` yields an `AF_INET` address with port 0 and
`valid()` has no wildcard exception — it reports `false`. -/
theorem address_valid_wildcard_counterexample :
    Address.from_string "*" 0 = .ok { family := AF_INET, port := 0 } ∧
    Address.valid { family := AF_INET, port := 0 } = false :=
  ⟨rfl, by decide⟩

/-- C5 (amended).  An address is valid iff its family is not unspecified
and, when the family is IPv4 or IPv6, its port is non-zero — with no
exception for wildcard-constructed addresses: `from_string("*", p)` and
`from_string("[*]", p)` yield valid addresses exactly when `p ≠ 0` (the
repository's own test asserts `bind_address(nets, "*")` with no port is
not valid). -/
theorem address_valid_characterization :
    (∀ a : Address, Address.valid a = true ↔
      (a.family ≠ AF_UNSPEC ∧ ((a.family = AF_INET ∨ a.family = AF_INET6) → a.port ≠ 0))) ∧
    (∀ p : Nat, Address.from_string "*" p = .ok { family := AF_INET, port := p } ∧
      (Address.valid { family := AF_INET, port := p } = true ↔ p ≠ 0)) := by
  constructor
  · intro a
    unfold Address.valid
    split_ifs with h1 h2
    · simp [h1]
    · simp only [Bool.false_eq_true, false_iff]
      intro hc
      exact absurd (hc.2 h2.1) (by simpa using h2.2)
    · simp only [true_iff]
      refine ⟨h1, fun hf => ?_⟩
      intro hp
      exact h2 ⟨hf, hp⟩
  · intro p
    refine ⟨rfl, ?_⟩
    unfold Address.valid
    by_cases hp : p = 0 <;> simp [AF_INET, AF_UNSPEC, AF_INET6, hp]

/-- C5 (witness for the amended claim). -/
theorem address_valid_characterization_witness :
    Address.valid { family := AF_INET, port := 5060 } = true ∧
    (Address.valid { family := AF_INET, port := 5060 } = true ↔ (5060 : Nat) ≠ 0) :=
  ⟨(address_valid_characterization.1 { family := AF_INET, port := 5060 }).mpr
    ⟨by decide, fun _ => by decide⟩,
   (address_valid_characterization.2 5060).2⟩

/-! ## Claims about `bind_address` -/

/-- C4 (counterexample).  The claim says the no-match fallback of
`bind_address` is the IPv4-any wildcard; but with an empty interface list
and the token `"eth9"` (no dot, no colon, not `"*"`/`"[*]"`) the function
returns the default-constructed address, whose family is `AF_UNSPEC`, not
`AF_INET`, and whose port stays 0. -/
theorem bind_address_fallback_counterexample :
    bind_address [] "eth9" 5060 AF_UNSPEC false = .ok {} ∧
    ({} : Address).family = AF_UNSPEC ∧ AF_UNSPEC ≠ AF_INET :=
  ⟨rfl, rfl, by decide⟩

/-- C4 (amended).  For a token that is not `"*"` or `"[*]"`, contains
neither `.` nor `:` (so no literal parse is attempted), and does not name
an interface found by `find`, `bind_address` returns the
default-constructed wildcard address: family unspecified, port zero — not
an IPv4 address. -/
theorem bind_address_fallback_unspec :
    ∀ (nets : List Iface) (id : String) (port family : Nat) (multicast : Bool),
    id ≠ "*" → id ≠ "[*]" →
    id.data.contains '.' = false → id.data.contains ':' = false →
    findIface nets id family multicast = none →
    bind_address nets id port family multicast = .ok {} := by
  intro nets id port family multicast h1 h2 h3 h4 h5
  unfold bind_address
  rw [if_neg (fun hc => h2 hc.1), if_neg h1,
    if_neg (fun hc => by rw [h3] at hc; exact absurd hc.2 (by simp)),
    if_neg (fun hc => by rw [h4] at hc; exact absurd hc.2 (by simp)), h5]

/-- C4 (witness for the amended claim). -/
theorem bind_address_fallback_unspec_witness :
    bind_address [⟨some "lo", some { family := AF_INET, b4 := (127, 0, 0, 1), port := 0 },
      some { family := AF_INET, b4 := (255, 0, 0, 0), port := 0 }, false⟩]
      "eth9" 5060 AF_UNSPEC false = .ok {} :=
  bind_address_fallback_unspec _ "eth9" 5060 AF_UNSPEC false
    (by decide) (by decide) (by decide) (by decide) (by decide)

/-! ## Claims about wildcard IPv6 rendering -/

/-- C8 (counterexample).  The claim says
`from_string("[*]", p).to_string()` begins with `"*"`.  At `p = 5060` the
produced address has family `AF_INET6` with the all-zero address, and
`to_string` renders `"[::]:5060"`, whose first character is `'['`, not
`'*'` (only an `AF_UNSPEC` address renders as `"*"`). -/
theorem wildcard6_render_counterexample :
    Address.from_string "[*]" 5060 = .ok { family := AF_INET6, port := 5060 } ∧
    Address.to_string { family := AF_INET6, port := 5060 } = .ok "[::]:5060" ∧
    "[::]:5060".data.head? ≠ some '*' :=
  ⟨rfl, rfl, by decide⟩

/-- C8 (amended).  `from_string("[*]", p)` yields the IPv6 wildcard
address: it reports `is_any() == true`, it renders as `"::"` when the
port is zero and `"[::]:" ++ p` otherwise (beginning with `'['`, not
`'*'`), and assigning any concrete (non-any) IPv4 address to it makes
`is_any()` false. -/
theorem wildcard6_any_and_render : ∀ p : Nat,
    ∃ a, Address.from_string "[*]" p = .ok a ∧ Address.isAny a = true ∧
      Address.to_string a = .ok (if p = 0 then "::" else "[::]:" ++ String.mk (natChars p)) ∧
      ∀ c : Address, c.family = AF_INET → Address.isAny c = false →
        Address.isAny (Address.assign a c) = false := by
  intro p
  refine ⟨{ family := AF_INET6, port := p }, ?_, ?_, ?_, ?_⟩
  · show Address.from_string "[*]" p = _
    unfold Address.from_string
    rw [if_neg (by decide), if_pos rfl]
  · show Address.isAny { family := AF_INET6, port := p } = true
    unfold Address.isAny
    simp [AF_INET6, AF_INET, AF_UNSPEC]
  · show Address.to_string { family := AF_INET6, port := p } = _
    unfold Address.to_string
    rw [if_neg (by simp [AF_INET6, AF_UNSPEC]), if_neg (by simp [AF_INET6, AF_INET]),
      if_pos rfl]
    by_cases hp : p = 0
    · rw [if_neg (by simp [hp]), if_pos hp]
      rfl
    · rw [if_pos (by simpa using hp), if_neg hp]
      rfl
  · intro c hc hany
    show Address.isAny (Address.assign _ c) = false
    unfold Address.assign
    rw [if_pos (Or.inl hc)]
    exact hany

/-- C8 (witness for the amended claim). -/
theorem wildcard6_any_and_render_witness :
    ∃ a, Address.from_string "[*]" 5060 = .ok a ∧ Address.isAny a = true ∧
      Address.to_string a =
        .ok (if (5060 : Nat) = 0 then "::" else "[::]:" ++ String.mk (natChars 5060)) ∧
      ∀ c : Address, c.family = AF_INET → Address.isAny c = false →
        Address.isAny (Address.assign a c) = false :=
  wildcard6_any_and_render 5060

/-! ## Claims about the IPv4 text round trip -/

/-- C7.  For every string `s` accepted by the IPv4 literal parser and
every port `p` in `(0, 65535]`, `from_string(s, p)` succeeds and
`to_string` on the result reproduces `s ++ ":" ++ p` exactly: the
canonical dotted-quad text round-trips through parse and render, and the
non-zero port is appended after a colon. -/
theorem from_string_roundtrip_ipv4 :
    ∀ (s : String) (p : Nat) (q : Nat × Nat × Nat × Nat),
    inet_pton4 s.data = some q → 0 < p → p ≤ 65535 →
    ∃ a, Address.from_string s p = .ok a ∧
      Address.to_string a = .ok (s ++ ":" ++ String.mk (natChars p)) := by
  intro s p q hq hp hple
  have hchars := inet_pton4_chars s.data q hq
  have hstar : s ≠ "*" := by
    intro h; subst h
    rcases hchars '*' (by decide) with h' | h' <;> exact absurd h' (by decide)
  have hbr : s ≠ "[*]" := by
    intro h; subst h
    rcases hchars '[' (by decide) with h' | h' <;> exact absurd h' (by decide)
  have hcolon : s.data.contains ':' = false := by
    by_contra hcon
    have hmem : ':' ∈ s.data := by
      cases hcc : s.data.contains ':' with
      | false => exact absurd hcc hcon
      | true => simpa using hcc
    rcases hchars ':' hmem with h' | h' <;> exact absurd h' (by decide)
  have hcolon' : ¬ (s.data.contains ':' = true) := by
    rw [hcolon]; simp
  refine ⟨{ family := AF_INET, b4 := q, port := p }, ?_, ?_⟩
  · unfold Address.from_string
    rw [if_neg hstar, if_neg hbr, if_neg hcolon', hq]
  · unfold Address.to_string
    rw [if_neg (by simp [AF_INET, AF_UNSPEC]), if_pos rfl,
      if_pos (by simpa using Nat.pos_iff_ne_zero.mp hp)]
    rw [inet_ntop4_pton4 s.data q hq]

/-- C7 (witness). -/
theorem from_string_roundtrip_ipv4_witness :
    ∃ a, Address.from_string "10.0.0.1" 80 = .ok a ∧
      Address.to_string a = .ok ("10.0.0.1" ++ ":" ++ String.mk (natChars 80)) :=
  from_string_roundtrip_ipv4 "10.0.0.1" 80 (10, 0, 0, 1) (by decide) (by decide) (by decide)

end Busuto
